import Mathlib

/-
Verification of the interrupt-driven RNG subsystem of mupplet-core
(src/mup_rng.h), shallowly embedded in Lean 4.

Modelling conventions:
* C machine integers are Nat with explicit truncation (`% 256` for uint8_t,
  `% 65536` for uint16_t, `% 2 ^ 32` for unsigned long on the 32-bit MCU
  targets) at the points where the C code can overflow or truncate.
* The global parallel arrays of mup_rng.h indexed by the interrupt number
  (entropy_pool, entropy_pool_read_ptr, ..., crc) are bundled per index into
  an EntropySource record; the per-index slice of each array is one field.
  A function Nat -> EntropySource models the array of slices.
* Hardware and OS side effects (micros(), time(nullptr), Serial prints, GPIO
  writes for the status LED, pub/sub message transport, noInterrupts guards)
  are external: clock readings enter the model as explicit parameters, prints
  and GPIO writes are dropped (they touch no state read back by the code
  except the LED blink fields, which no other code path reads).
-/

set_option maxRecDepth 8192
set_option linter.unusedVariables false

namespace MupRng

/-- Pool capacity per source: USTD_ENTROPY_POOL_SIZE in mup_rng.h. -/
def USTD_ENTROPY_POOL_SIZE : Nat := 512

/-- Number of low bits of each mixed byte fed to the von Neumann extractor:
volatile const int maxBits = 3 in mup_rng.h. -/
def maxBits : Nat := 3

/-- Modulus of the C type unsigned long on the 32-bit MCU targets, 2 ^ 32. -/
def ULONG_MOD : Nat := 4294967296

/-- Per-source shared producer/consumer state: the slice at one interrupt
index of the global volatile arrays of mup_rng.h (entropy_pool,
entropy_pool_read_ptr, entropy_pool_write_ptr, entropy_pool_size,
currentByte, currentBitPtr, bit_cnt, last_bit, crc). -/
@[ext]
structure EntropySource where
  pool : Nat → Nat
  readPtr : Nat
  writePtr : Nat
  size : Nat
  currentByte : Nat
  currentBitPtr : Nat
  bit_cnt : Nat
  last_bit : Nat
  crc : Nat

/-- Initial value of one slice: arrays are zero-initialised, crc starts at
0xffff. -/
def initEntropySource : EntropySource :=
  { pool := fun _ => 0, readPtr := 0, writePtr := 0, size := 0,
    currentByte := 0, currentBitPtr := 0, bit_cnt := 0, last_bit := 0,
    crc := 0xffff }

/-- Append one completed byte to the pool: mup_rng.h lines 79-83.  Writes at
the write cursor, advances it modulo the capacity, increments the count and
clamps it at the capacity. -/
def pushByte (s : EntropySource) (b : Nat) : EntropySource :=
  let s1 := { s with pool := Function.update s.pool s.writePtr b,
                     writePtr := (s.writePtr + 1) % USTD_ENTROPY_POOL_SIZE }
  let sz := s1.size + 1
  { s1 with size := if sz > USTD_ENTROPY_POOL_SIZE then USTD_ENTROPY_POOL_SIZE else sz }

/-- One candidate bit through the von Neumann extractor: the body of the
for-loop in ustd_rng_pirq_master, mup_rng.h lines 69-89.  bit_cnt == 0 holds
the candidate bit; otherwise, if the held bit differs from the current one,
the held bit is shifted into currentByte (uint8_t, hence % 256) and, at 8
accumulated bits, the completed byte goes to the pool; bit_cnt is reset. -/
def vnBitStep (s : EntropySource) (curBit : Nat) : EntropySource :=
  if s.bit_cnt = 0 then
    { s with last_bit := curBit, bit_cnt := s.bit_cnt + 1 }
  else
    let s1 :=
      if s.last_bit ≠ curBit then
        let s2 := { s with currentByte := ((s.currentByte <<< 1) ||| s.last_bit) % 256,
                           currentBitPtr := s.currentBitPtr + 1 }
        if s2.currentBitPtr = 8 then
          { pushByte s2 s2.currentByte with currentBitPtr := 0, currentByte := 0 }
        else s2
      else s
    { s1 with bit_cnt := 0 }

/-- One byte through the CRC16 CCITT bit loop of ustd_rng_pirq_master
(mup_rng.h lines 49-55), unrolled over the 8 bits of the data byte. -/
def crc16Bits : Nat → Nat → Nat → Nat
  | 0, c, _ => c
  | n + 1, c, data =>
    let c1 := if ((c &&& 1) ^^^ (data &&& 1)) ≠ 0 then (c >>> 1) ^^^ 0x8408 else c >>> 1
    crc16Bits n c1 (data >>> 1)

/-- Feed one byte (the inner do-while iteration of mup_rng.h lines 48-56,
data = 0xff & *data_p). -/
def crc16ByteStep (c b : Nat) : Nat := crc16Bits 8 c (b &&& 0xff)

/-- The mixing step of ustd_rng_pirq_master, mup_rng.h lines 44-62: the low
16 bits of the current micros() value are fed byte-wise (low byte first,
little-endian layout of uint16_t on the AVR/ESP targets) through the CRC16
state, which is then complemented and byte-swapped (all on uint16_t); the
result is the new crc and its low byte is the value called delta in the
source.  Returns (new crc, delta). -/
def irqMix (c curr : Nat) : Nat × Nat :=
  let dw := curr % 65536
  let c1 := crc16ByteStep c (dw % 256)
  let c2 := crc16ByteStep c1 (dw / 256)
  let c3 := c2 ^^^ 0xffff
  let c4 := ((c3 <<< 8) % 65536) ||| ((c3 >>> 8) &&& 0xff)
  (c4, c4 &&& 0xff)

/-- The maxBits low bits of delta, least significant first:
curBit = (delta >> i) & 0x01 for i = 0, 1, 2 (mup_rng.h lines 68-69). -/
def bitsOfDelta (delta : Nat) : List Nat :=
  (List.range maxBits).map (fun i => (delta >>> i) &&& 1)

/-- The process-wide state shared by all sources: the array of per-source
slices plus the two genuinely global variables of mup_rng.h, the total
interrupt counter (line 28) and the delta histogram (line 30). -/
structure RngGlobal where
  src : Nat → EntropySource
  irq_count_total : Nat
  d_hist : Nat → Nat

/-- Initial global state. -/
def initRngGlobal : RngGlobal :=
  { src := fun _ => initEntropySource, irq_count_total := 0, d_hist := fun _ => 0 }

/-- The entropy-capture interrupt handler ustd_rng_pirq_master
(mup_rng.h lines 34-92) for source irqno at current micros() value curr:
increments the global interrupt counter; if the source's pool is below
capacity, mixes the low 16 bits of curr into the per-source CRC, counts the
resulting delta byte in the global d_hist, and feeds the maxBits low bits of
delta through the von Neumann extractor. -/
def ustd_rng_pirq_master (g : RngGlobal) (irqno curr : Nat) : RngGlobal :=
  let g1 := { g with irq_count_total := g.irq_count_total + 1 }
  let s := g1.src irqno
  if s.size < USTD_ENTROPY_POOL_SIZE then
    let m := irqMix s.crc curr
    let g2 := { g1 with d_hist := Function.update g1.d_hist m.2 (g1.d_hist m.2 + 1) }
    let s1 := { s with crc := m.1 }
    let s2 := (bitsOfDelta m.2).foldl vnBitStep s1
    { g2 with src := Function.update g2.src irqno s2 }
  else g1

/-- The copy loop of getRandomData (mup_rng.h lines 136-141): reads len
bytes starting at the read cursor, advancing it modulo the capacity and
decrementing the count once per byte. -/
def drainLoop : EntropySource → Nat → List Nat × EntropySource
  | s, 0 => ([], s)
  | s, len + 1 =>
    let b := s.pool s.readPtr
    let s1 := { s with readPtr := (s.readPtr + 1) % USTD_ENTROPY_POOL_SIZE,
                       size := s.size - 1 }
    let r := drainLoop s1 len
    (b :: r.1, r.2)

/-- getRandomData (mup_rng.h lines 129-144) on one source: the request is
clamped to the pool capacity and then to the buffered count; that many bytes
are copied out in FIFO order and the number copied is returned. -/
def getRandomData (s : EntropySource) (len : Nat) : List Nat × Nat × EntropySource :=
  let len1 := if len > USTD_ENTROPY_POOL_SIZE then USTD_ENTROPY_POOL_SIZE else len
  let len2 := if len1 > s.size then s.size else len1
  let r := drainLoop s len2
  (r.1, len2, r.2)

/-- The buffered bytes of a source in FIFO order, read cursor first. -/
def queueOf (s : EntropySource) : List Nat :=
  (List.range s.size).map (fun i => s.pool ((s.readPtr + i) % USTD_ENTROPY_POOL_SIZE))

/-- The ring-buffer well-formedness invariant: cursors in range, count at
most the capacity, write cursor = read cursor + count modulo capacity. -/
def Inv (s : EntropySource) : Prop :=
  s.readPtr < USTD_ENTROPY_POOL_SIZE ∧
  s.writePtr < USTD_ENTROPY_POOL_SIZE ∧
  s.size ≤ USTD_ENTROPY_POOL_SIZE ∧
  s.writePtr = (s.readPtr + s.size) % USTD_ENTROPY_POOL_SIZE

instance (s : EntropySource) : Decidable (Inv s) := by
  unfold Inv; infer_instance

/-- One abstract producer/consumer operation on one source's pool. -/
inductive PoolOp where
  | push : Nat → PoolOp
  | drain : Nat → PoolOp

/-- Apply one operation.  A push is the byte-append of the interrupt handler,
which is guarded by size < USTD_ENTROPY_POOL_SIZE at handler entry (mup_rng.h
line 40); a full pool drops the byte.  Returns (state, bytes accepted by the
push, bytes copied out by the drain). -/
def stepOp (s : EntropySource) : PoolOp → EntropySource × List Nat × List Nat
  | .push b =>
    if s.size < USTD_ENTROPY_POOL_SIZE then (pushByte s b, [b], []) else (s, [], [])
  | .drain k =>
    let r := getRandomData s k
    (r.2.2, [], r.1)

/-- Run a sequence of interleaved operations, collecting all accepted pushed
bytes and all drained bytes in order. -/
def runOps : EntropySource → List PoolOp → EntropySource × List Nat × List Nat
  | s, [] => (s, [], [])
  | s, op :: ops =>
    let r1 := stepOp s op
    let r2 := runOps r1.1 ops
    (r2.1, r1.2.1 ++ r2.2.1, r1.2.2 ++ r2.2.2)

/-- The value of the C cast (float)n on a natural number n: round to the
nearest value representable in IEEE-754 single precision (24-bit
significand), ties to the even significand.  For n below 2 ^ 24 = 16777216
the conversion is exact; above, n is rounded to the nearest multiple of
2 ^ (floor(log2 n) - 23).  A rounded-up significand of 2 ^ 24 simply
denotes the same value with the next exponent, so the formula stays
correct. -/
def fl32 (n : Nat) : Nat :=
  if n < 16777216 then n
  else
    let k := n.log2 - 23
    let unit := 2 ^ k
    let q := n / unit
    let r := n % unit
    let half := unit / 2
    if half < r ∨ (r = half ∧ q % 2 = 1) then (q + 1) * unit else q * unit

/-- evalRngSelfTest (mup_rng.h lines 359-406).  The C code computes the band
min = (unsigned long)((float)selfTestSampleSize / 256.0 / 2.0) and
max = (unsigned long)((float)selfTestSampleSize / 256.0 * 2.0) with fudge
factor 2.0.  The cast (float)selfTestSampleSize rounds to the nearest
single-precision value, fl32; the following arithmetic is performed in
double precision (the float operand is promoted against the double literals
256.0 and the float fudge promoted alike) and is exact: dividing by 256.0
and by 2.0, or multiplying by 2.0, only shifts the exponent of a value
whose at-most-24-bit significand is unchanged, with no underflow or
overflow for an unsigned-long sample size.  The final cast truncates toward
zero, so min and max are exactly fl32 sampleSize / 512 and
fl32 sampleSize / 128 in natural division (fl32 of a natural number is a
natural number).  The loop clears the ok flag on any bin outside the
band. -/
def evalRngSelfTest (hist : Nat → Nat) (sampleSize : Nat) : Bool :=
  let min : Nat := fl32 sampleSize / 512
  let max : Nat := fl32 sampleSize / 128
  (List.range 256).foldl (fun ok i => if hist i < min ∨ max < hist i then false else ok) true

/-- The generator states of the Rng class (mup_rng.h line 195). -/
inductive RngSampleMode where
  | RSM_NONE | RSM_SELF_TEST | RSM_OK | RSM_FAILED
deriving DecidableEq

/-- The self-test states (mup_rng.h line 350). -/
inductive RngSelfTestState where
  | RST_NONE | RST_INIT | RST_RUNNING | RST_SAMPLE_DONE | RST_FAILED | RST_OK
deriving DecidableEq

export RngSampleMode (RSM_NONE RSM_SELF_TEST RSM_OK RSM_FAILED)
export RngSelfTestState (RST_NONE RST_INIT RST_RUNNING RST_SAMPLE_DONE RST_FAILED RST_OK)

/-- publishMax (mup_rng.h line 312): cap of the publish staging buffer. -/
def publishMax : Nat := 128

/-- rngBufSize (mup_rng.h line 352): drain request size per tick. -/
def rngBufSize : Nat := 512

/-- The per-instance state of the Rng class that the claims touch.  The
publish staging buffer publishBuf plus publishBufPtr is modelled as the list
of its first publishBufPtr bytes (cells past the fill level are never read).
The status-LED fields and print_cnt only feed GPIO and Serial output and are
omitted. -/
@[ext]
structure RngInst where
  rngSampleMode : RngSampleMode
  rngSelfTestState : RngSelfTestState
  rngHistogram : Nat → Nat
  samples : Nat
  testTimer : Nat
  selfTestSampleSize : Nat
  interruptIndex_input : Nat
  lastIrqCount : Nat
  lastOkMillis : Nat
  publishBuf : List Nat
  isFirstFailure : Bool

/-- startSelfTest (mup_rng.h lines 345-348). -/
def startSelfTest (r : RngInst) : RngInst :=
  { r with rngSampleMode := RSM_SELF_TEST, rngSelfTestState := RST_INIT }

/-- The histogram/counter update loop of RST_RUNNING (mup_rng.h lines
449-452): each drained byte bumps its histogram bin and the sample count. -/
def updateHist (r : RngInst) (bs : List Nat) : RngInst :=
  bs.foldl
    (fun r b =>
      { r with rngHistogram := Function.update r.rngHistogram b (r.rngHistogram b + 1),
               samples := r.samples + 1 })
    r

/-- getTotalIrqCount (mup_rng.h lines 155-160): the value of the unsigned
long counter as read by the task. -/
def getTotalIrqCount (g : RngGlobal) : Nat := g.irq_count_total % ULONG_MOD

/-- rngSelfTest (mup_rng.h lines 436-479), one tick at the current
time(nullptr) reading nowSec (seconds; the clock is monotone, so the C
signed time_t difference is the Nat difference). -/
def rngSelfTest (g : RngGlobal) (r : RngInst) (nowSec : Nat) : RngGlobal × RngInst :=
  match r.rngSelfTestState with
  | RST_INIT =>
    (g, { r with testTimer := nowSec, rngHistogram := fun _ => 0, samples := 0,
                 rngSelfTestState := RST_RUNNING })
  | RST_RUNNING =>
    if r.samples < r.selfTestSampleSize then
      let d := getRandomData (g.src r.interruptIndex_input) rngBufSize
      let g1 := { g with src := Function.update g.src r.interruptIndex_input d.2.2 }
      let r1 := updateHist r d.1
      if d.2.1 = 0 then
        if nowSec - r1.testTimer > 10 then
          (g1, { r1 with rngSelfTestState := RST_FAILED, isFirstFailure := false })
        else (g1, r1)
      else (g1, { r1 with testTimer := nowSec })
    else (g, { r with rngSelfTestState := RST_SAMPLE_DONE })
  | RST_SAMPLE_DONE =>
    if evalRngSelfTest r.rngHistogram r.selfTestSampleSize then
      (g, { r with rngSelfTestState := RST_OK })
    else
      (g, { r with rngSelfTestState := RST_FAILED })
  | _ => (g, r)

/-- sampleRandomAndDistribute (mup_rng.h lines 482-513): drains the pool;
with zero bytes reports false, else stages the drained bytes into the
publish buffer up to publishMax (the copy loop breaks at the cap) and
reports true.  Serial output is external. -/
def sampleRandomAndDistribute (g : RngGlobal) (r : RngInst) : RngGlobal × RngInst × Bool :=
  let d := getRandomData (g.src r.interruptIndex_input) rngBufSize
  let g1 := { g with src := Function.update g.src r.interruptIndex_input d.2.2 }
  if d.2.1 = 0 then (g1, r, false)
  else
    let r1 :=
      if r.publishBuf.length < publishMax then
        { r with publishBuf := r.publishBuf ++ d.1.take (publishMax - r.publishBuf.length) }
      else r
    (g1, r1, true)

/-- loop (mup_rng.h lines 515-557), one scheduler tick at time(nullptr)
reading nowSec and millis() reading nowMs.  rngStateLedUpdate only drives
the status-LED GPIO and its blink fields and is omitted.  The FAILED branch
compares the unsigned-long difference of the current and last observed
interrupt counts against the retry threshold 4; at the end of every tick the
last observed count is refreshed. -/
def loop (g : RngGlobal) (r : RngInst) (nowSec nowMs : Nat) : RngGlobal × RngInst :=
  let p :=
    match r.rngSampleMode with
    | RSM_SELF_TEST =>
      let q := rngSelfTest g r nowSec
      let r1 :=
        match q.2.rngSelfTestState with
        | RST_OK => { q.2 with rngSampleMode := RSM_OK }
        | RST_FAILED => { q.2 with rngSampleMode := RSM_FAILED }
        | _ => q.2
      (q.1, r1)
    | RSM_OK =>
      let r1 := { r with lastOkMillis := nowMs }
      let q := sampleRandomAndDistribute g r1
      if q.2.2 then (q.1, q.2.1) else (q.1, { q.2.1 with rngSampleMode := RSM_FAILED })
    | RSM_FAILED =>
      if (getTotalIrqCount g + ULONG_MOD - r.lastIrqCount) % ULONG_MOD > 4 then
        (g, startSelfTest r)
      else (g, r)
    | RSM_NONE => (g, r)
  (p.1, { p.2 with lastIrqCount := getTotalIrqCount p.1 })

/-- The candidate (delta) bytes the handler derives along a list of micros()
readings, threading the per-source CRC state: at each interrupt the mixing
step of mup_rng.h lines 44-62 is applied to the absolute current time. -/
def codeDeltaBytes : Nat → List Nat → List Nat
  | _, [] => []
  | c, t :: ts =>
    let m := irqMix c t
    m.2 :: codeDeltaBytes m.1 ts

/-- The candidate bytes prescribed by the spec's words (spec.md section 4.1),
for comparison with codeDeltaBytes: on each invocation compute
delta = current_time - last_event_time by wraparound-safe unsigned
subtraction, store current_time as the new last_event_time, and derive the
candidate byte from that inter-arrival delta after the same CRC/bit-mixing
step.  The second argument is the stored last-event timestamp. -/
def specDeltaModel : Nat → Nat → List Nat → List Nat
  | _, _, [] => []
  | c, lastT, t :: ts =>
    let delta := (t + ULONG_MOD - lastT) % ULONG_MOD
    let m := irqMix c delta
    m.2 :: specDeltaModel m.1 t ts

/-- The candidate bit streams fed to the von Neumann extractor by the two
computations above. -/
def codeCandidateBits (c : Nat) (ts : List Nat) : List Nat :=
  (codeDeltaBytes c ts).flatMap bitsOfDelta

/-- Candidate bit stream of the spec-side model. -/
def specCandidateBits (c lastT : Nat) (ts : List Nat) : List Nat :=
  (specDeltaModel c lastT ts).flatMap bitsOfDelta

/-- ASCII code produced by byteToHex for one nibble (mup_rng.h lines
299-308): digits from a zero of 48, letters from an A of 65. -/
def hexDigitChar (v : Nat) : Nat := if v < 10 then 48 + v else 65 + (v - 10)

/-- The three character-buffer writes of one byteToHex call (mup_rng.h lines
296-310) at offset base: high nibble, low nibble, terminating 0.  Each entry
is (index written, value written). -/
def byteToHexWrites (byte base : Nat) : List (Nat × Nat) :=
  [(base, hexDigitChar (byte % 256 / 16)),
   (base + 1, hexDigitChar (byte % 16)),
   (base + 2, 0)]

/-- All character-buffer writes of the encode loop of publish_rng_data
(mup_rng.h lines 319-321): byteToHex(publishBuf[i], buf + i * 2) for every
i < publishBufPtr. -/
def publish_rng_data_writes (publishBufPtr : Nat) (publishBuf : Nat → Nat) :
    List (Nat × Nat) :=
  (List.range publishBufPtr).flatMap (fun i => byteToHexWrites (publishBuf i) (2 * i))

/-- Size of the hex output buffer: char buf[publishMax + 1]
(mup_rng.h line 313); valid indices are 0 .. publishMax. -/
def bufCapacity : Nat := publishMax + 1

/-- Uniform self-test histogram: each of the 256 byte values occurs exactly
targetSampleCount / 256 times for the default target 25600. -/
def rngUniformHist : Nat → Nat := fun _ => 25600 / 256

/-- Skewed self-test histogram over a 25600-byte stream: byte value 0 occurs
1000 times, ten times its expected frequency of 100, and the remaining 255
values share the remaining 24600 samples (120 bins of 97 and 135 bins of
96, proportionally less than 100 each). -/
def rngSkewHist : Nat → Nat := fun i => if i = 0 then 1000 else if i < 121 then 97 else 96

/-- A complete 25728-sample histogram (bins sum to 25728) whose bin 0 holds
201 samples, one above (25728/256)*2 = 200; the other bins hold 101 or
100. -/
def rngUpHist : Nat → Nat := fun i => if i = 0 then 201 else if i ≤ 27 then 101 else 100

/-- A complete 25727-sample histogram (bins sum to 25727) whose bin 0 holds
50 samples, strictly below the real bound 25727/512 = 50.24…; the other
bins hold 101 or 100. -/
def rngLowHist : Nat → Nat := fun i => if i = 0 then 50 else if i ≤ 177 then 101 else 100

/-- A source slice holding one buffered byte, 42, at cursor 0. -/
def srcOne : EntropySource :=
  { initEntropySource with pool := Function.update (fun _ => 0) 0 42,
                           writePtr := 1, size := 1 }

/-- A global state whose source 0 holds the single byte 42. -/
def gOne : RngGlobal :=
  { initRngGlobal with src := Function.update initRngGlobal.src 0 srcOne }

/-- A global state whose source 0 reports 3 buffered bytes. -/
def gPool3 : RngGlobal :=
  { initRngGlobal with
      src := Function.update initRngGlobal.src 0
        { initEntropySource with writePtr := 3, size := 3 } }

/-- A von Neumann extractor state holding a first candidate bit 1. -/
def vnHeld : EntropySource := { initEntropySource with bit_cnt := 1, last_bit := 1 }

/-- Instance state right after begin()/startSelfTest() with a self-test
target of 0 samples (selfTestSampleSize is a constructor parameter), source
index 0. -/
def rStart : RngInst :=
  { rngSampleMode := RSM_SELF_TEST, rngSelfTestState := RST_INIT,
    rngHistogram := fun _ => 0, samples := 0, testTimer := 0,
    selfTestSampleSize := 0, interruptIndex_input := 0, lastIrqCount := 0,
    lastOkMillis := 0, publishBuf := [], isFirstFailure := true }

/-- Tick 1 from the start state: self-test INIT. -/
def trace1 : RngGlobal × RngInst := loop initRngGlobal rStart 0 0

/-- Tick 2: RUNNING finds the 0-sample target already met. -/
def trace2 : RngGlobal × RngInst := loop trace1.1 trace1.2 1 1

/-- Tick 3: SAMPLE_DONE evaluates the (empty) histogram and reaches OK. -/
def trace3 : RngGlobal × RngInst := loop trace2.1 trace2.2 2 2

/-- Tick 4: the OK state drains zero bytes. -/
def trace4 : RngGlobal × RngInst := loop trace3.1 trace3.2 3 3

/-- An instance watching source 1, in the FAILED state with a recorded
interrupt count of 0. -/
def rFailed1 : RngInst :=
  { rngSampleMode := RSM_FAILED, rngSelfTestState := RST_FAILED,
    rngHistogram := fun _ => 0, samples := 0, testTimer := 0,
    selfTestSampleSize := 25600, interruptIndex_input := 1, lastIrqCount := 0,
    lastOkMillis := 0, publishBuf := [], isFirstFailure := true }

/-- Five interrupts delivered to source 0 only, from the initial state. -/
def gBurst : RngGlobal :=
  [11, 22, 33, 44, 55].foldl (fun g t => ustd_rng_pirq_master g 0 t) initRngGlobal

/-- An instance in self-test RUNNING on source 0 with the default target. -/
def rRunning : RngInst :=
  { rngSampleMode := RSM_SELF_TEST, rngSelfTestState := RST_RUNNING,
    rngHistogram := fun _ => 0, samples := 0, testTimer := 0,
    selfTestSampleSize := 25600, interruptIndex_input := 0, lastIrqCount := 0,
    lastOkMillis := 0, publishBuf := [], isFirstFailure := true }

/-- An instance in the OK state on source 0. -/
def rOk : RngInst :=
  { rngSampleMode := RSM_OK, rngSelfTestState := RST_OK,
    rngHistogram := fun _ => 0, samples := 0, testTimer := 0,
    selfTestSampleSize := 25600, interruptIndex_input := 0, lastIrqCount := 0,
    lastOkMillis := 0, publishBuf := [], isFirstFailure := true }

/-- A global state whose total interrupt counter reads 7. -/
def gIrq7 : RngGlobal := { initRngGlobal with irq_count_total := 7 }

/-- An interleaved push/drain scenario for the ring buffer. -/
def opsScenario : List PoolOp :=
  [PoolOp.push 7, PoolOp.push 9, PoolOp.drain 1, PoolOp.push 3, PoolOp.drain 5]

/-! ## Helper lemmas -/

theorem drainLoop_length (n : Nat) : ∀ s : EntropySource, (drainLoop s n).1.length = n := by
  induction n with
  | zero => intro s; rfl
  | succ n ih => intro s; simp [drainLoop, ih]

theorem eval_foldl_iff (hist : Nat → Nat) (mn mx : Nat) (l : List Nat) :
    ∀ b : Bool,
      (l.foldl (fun ok i => if hist i < mn ∨ mx < hist i then false else ok) b = true) ↔
        (b = true ∧ ∀ i ∈ l, mn ≤ hist i ∧ hist i ≤ mx) := by
  induction l with
  | nil => intro b; simp
  | cons x xs ih =>
    intro b
    rw [List.foldl_cons, ih]
    by_cases hx : hist x < mn ∨ mx < hist x
    · simp only [hx, if_true, List.mem_cons]
      constructor
      · rintro ⟨h, -⟩; cases h
      · rintro ⟨-, hxx⟩
        have := hxx x (Or.inl rfl)
        omega
    · simp only [hx, if_false, List.mem_cons]
      constructor
      · rintro ⟨hb, hrest⟩
        refine ⟨hb, ?_⟩
        rintro i (rfl | hi)
        · omega
        · exact hrest i hi
      · rintro ⟨hb, hall⟩
        exact ⟨hb, fun i hi => hall i (Or.inr hi)⟩

theorem updateHist_eq (bs : List Nat) : ∀ r : RngInst,
    updateHist r bs =
      { r with rngHistogram := fun v => r.rngHistogram v + bs.count v,
               samples := r.samples + bs.length } := by
  induction bs with
  | nil => intro r; ext <;> simp [updateHist]
  | cons b bs ih =>
    intro r
    have step : updateHist r (b :: bs) =
        updateHist
          { r with rngHistogram := Function.update r.rngHistogram b (r.rngHistogram b + 1),
                   samples := r.samples + 1 } bs := rfl
    rw [step, ih]
    ext v
    · rfl
    · rfl
    · simp only [List.count_cons]
      by_cases hv : v = b
      · subst hv; simp [Function.update_same]; omega
      · simp [Function.update_noteq hv, hv, Ne.symm hv]
    · simp [List.length_cons]; omega
    · rfl
    · rfl
    · rfl
    · rfl
    · rfl
    · rfl
    · rfl

theorem queueOf_cons (s : EntropySource) (hr : s.readPtr < USTD_ENTROPY_POOL_SIZE)
    (hpos : 0 < s.size) :
    queueOf s = s.pool s.readPtr ::
      queueOf { s with readPtr := (s.readPtr + 1) % USTD_ENTROPY_POOL_SIZE,
                       size := s.size - 1 } := by
  unfold queueOf
  obtain ⟨m, hm⟩ : ∃ m, s.size = m + 1 := ⟨s.size - 1, by omega⟩
  simp only [hm, Nat.add_sub_cancel]
  rw [List.range_succ_eq_map]
  simp only [List.map_cons, List.map_map]
  congr 1
  · rw [Nat.add_zero, Nat.mod_eq_of_lt hr]
  · apply List.map_congr_left
    intro i hi
    apply congrArg s.pool
    simp only [Function.comp_apply, USTD_ENTROPY_POOL_SIZE]
    omega

theorem drainLoop_spec (n : Nat) : ∀ s : EntropySource, Inv s → n ≤ s.size →
    (drainLoop s n).1 = (queueOf s).take n ∧
    queueOf (drainLoop s n).2 = (queueOf s).drop n ∧
    Inv (drainLoop s n).2 ∧
    (drainLoop s n).2.size = s.size - n ∧
    (drainLoop s n).2.pool = s.pool ∧
    (drainLoop s n).2.writePtr = s.writePtr := by
  induction n with
  | zero =>
    intro s hInv hn
    exact ⟨rfl, rfl, hInv, rfl, rfl, rfl⟩
  | succ n ih =>
    intro s hInv hn
    obtain ⟨h1, h2, h3, h4⟩ := hInv
    have hpos : 0 < s.size := by omega
    have hq := queueOf_cons s h1 hpos
    have hInv1 : Inv { s with readPtr := (s.readPtr + 1) % USTD_ENTROPY_POOL_SIZE,
                              size := s.size - 1 } := by
      refine ⟨?_, h2, ?_, ?_⟩ <;> simp only [USTD_ENTROPY_POOL_SIZE] at *
      · omega
      · omega
      · omega
    have hrec := ih _ hInv1 (by simp only []; omega)
    have hstep : drainLoop s (n + 1) =
        (s.pool s.readPtr ::
          (drainLoop { s with readPtr := (s.readPtr + 1) % USTD_ENTROPY_POOL_SIZE,
                              size := s.size - 1 } n).1,
         (drainLoop { s with readPtr := (s.readPtr + 1) % USTD_ENTROPY_POOL_SIZE,
                             size := s.size - 1 } n).2) := rfl
    rw [hstep, hq]
    refine ⟨?_, ?_, hrec.2.2.1, ?_, hrec.2.2.2.2.1, hrec.2.2.2.2.2⟩
    · simp only [List.take_succ_cons]
      rw [hrec.1]
    · simp only [List.drop_succ_cons]
      exact hrec.2.1
    · simp only []
      rw [hrec.2.2.2.1]
      simp only []
      omega

theorem pushByte_spec (s : EntropySource) (b : Nat) (hInv : Inv s)
    (hsz : s.size < USTD_ENTROPY_POOL_SIZE) :
    queueOf (pushByte s b) = queueOf s ++ [b] ∧ Inv (pushByte s b) ∧
    (pushByte s b).size = s.size + 1 := by
  obtain ⟨h1, h2, h3, h4⟩ := hInv
  have hpush : pushByte s b =
      { s with pool := Function.update s.pool s.writePtr b,
               writePtr := (s.writePtr + 1) % USTD_ENTROPY_POOL_SIZE,
               size := s.size + 1 } := by
    unfold pushByte
    simp only []
    rw [if_neg (by simp only [USTD_ENTROPY_POOL_SIZE] at *; omega)]
  rw [hpush]
  refine ⟨?_, ⟨h1, ?_, ?_, ?_⟩, rfl⟩
  · unfold queueOf
    simp only [List.range_succ, List.map_append, List.map_cons, List.map_nil]
    congr 1
    · apply List.map_congr_left
      intro i hi
      rw [List.mem_range] at hi
      apply Function.update_noteq
      rw [h4]
      simp only [USTD_ENTROPY_POOL_SIZE] at *
      omega
    · rw [← h4, Function.update_same]
  · simp only [USTD_ENTROPY_POOL_SIZE] at *; omega
  · simp only [USTD_ENTROPY_POOL_SIZE] at *; omega
  · simp only [USTD_ENTROPY_POOL_SIZE] at *; omega

theorem getRandomData_len_eq (s : EntropySource) (k : Nat) :
    (getRandomData s k).2.1 = min (min k USTD_ENTROPY_POOL_SIZE) s.size := by
  unfold getRandomData
  simp only [USTD_ENTROPY_POOL_SIZE, min_def]
  split_ifs <;> omega

theorem getRandomData_spec (s : EntropySource) (k : Nat) (hInv : Inv s) :
    (getRandomData s k).1 = (queueOf s).take ((getRandomData s k).2.1) ∧
    queueOf (getRandomData s k).2.2 = (queueOf s).drop ((getRandomData s k).2.1) ∧
    Inv (getRandomData s k).2.2 ∧
    (getRandomData s k).2.2.size = s.size - (getRandomData s k).2.1 ∧
    (getRandomData s k).2.2.pool = s.pool ∧
    (getRandomData s k).2.2.writePtr = s.writePtr := by
  have hlen : (getRandomData s k).2.1 ≤ s.size := by
    rw [getRandomData_len_eq]; omega
  exact drainLoop_spec ((getRandomData s k).2.1) s hInv hlen

theorem stepOp_spec (s : EntropySource) (op : PoolOp) (hInv : Inv s) :
    Inv (stepOp s op).1 ∧
    (stepOp s op).2.2 ++ queueOf (stepOp s op).1 = queueOf s ++ (stepOp s op).2.1 := by
  cases op with
  | push b =>
    by_cases hsz : s.size < USTD_ENTROPY_POOL_SIZE
    · have hp := pushByte_spec s b hInv hsz
      simp only [stepOp, hsz, if_true]
      exact ⟨hp.2.1, by simp [hp.1]⟩
    · simp only [stepOp, hsz, if_false]
      exact ⟨hInv, by simp⟩
  | drain k =>
    have hd := getRandomData_spec s k hInv
    simp only [stepOp]
    refine ⟨hd.2.2.1, ?_⟩
    rw [hd.1, hd.2.1]
    simp [List.take_append_drop]

theorem runOps_spec (ops : List PoolOp) : ∀ s : EntropySource, Inv s →
    Inv (runOps s ops).1 ∧
    (runOps s ops).2.2 ++ queueOf (runOps s ops).1 = queueOf s ++ (runOps s ops).2.1 := by
  induction ops with
  | nil =>
    intro s hInv
    exact ⟨hInv, by simp [runOps]⟩
  | cons op ops ih =>
    intro s hInv
    have h1 := stepOp_spec s op hInv
    have h2 := ih (stepOp s op).1 h1.1
    have hrun : runOps s (op :: ops) =
        ((runOps (stepOp s op).1 ops).1,
         (stepOp s op).2.1 ++ (runOps (stepOp s op).1 ops).2.1,
         (stepOp s op).2.2 ++ (runOps (stepOp s op).1 ops).2.2) := rfl
    rw [hrun]
    refine ⟨h2.1, ?_⟩
    simp only [List.append_assoc]
    rw [h2.2, ← List.append_assoc, h1.2, List.append_assoc]

theorem sample_src_other (g : RngGlobal) (r : RngInst) (j : Nat)
    (hjr : j ≠ r.interruptIndex_input) :
    (sampleRandomAndDistribute g r).1.src j = g.src j := by
  unfold sampleRandomAndDistribute
  by_cases hz : (getRandomData (g.src r.interruptIndex_input) rngBufSize).2.1 = 0 <;>
    simp [hz, Function.update_noteq hjr]

theorem rngSelfTest_src_other (g : RngGlobal) (r : RngInst) (nowSec j : Nat)
    (hjr : j ≠ r.interruptIndex_input) :
    (rngSelfTest g r nowSec).1.src j = g.src j := by
  obtain ⟨mode, stst, hist, smp, tt, N, idx, lic, lom, pb, ff⟩ := r
  cases stst
  case RST_RUNNING =>
    simp only [rngSelfTest]
    split_ifs <;> simp [Function.update_noteq hjr]
  case RST_SAMPLE_DONE =>
    simp only [rngSelfTest]
    split_ifs <;> rfl
  all_goals rfl

theorem loop_src_other (g : RngGlobal) (r : RngInst) (nowSec nowMs j : Nat)
    (hjr : j ≠ r.interruptIndex_input) :
    (loop g r nowSec nowMs).1.src j = g.src j := by
  have hsm : ∀ r1 : RngInst, j ≠ r1.interruptIndex_input →
      (sampleRandomAndDistribute g r1).1.src j = g.src j := fun r1 h =>
    sample_src_other g r1 j h
  obtain ⟨mode, stst, hist, smp, tt, N, idx, lic, lom, pb, ff⟩ := r
  cases mode
  case RSM_SELF_TEST =>
    simp only [loop]
    exact rngSelfTest_src_other g _ nowSec j hjr
  case RSM_OK =>
    simp only [loop]
    split_ifs <;> exact hsm _ hjr
  case RSM_FAILED =>
    simp only [loop]
    split_ifs <;> rfl
  case RSM_NONE => rfl

/-! ## Claim theorems -/

/-- Claim C1: the von Neumann corrector of the entropy-capture interrupt
handler holds the first bit of each pair; when the second bit differs, the
held (first) bit is appended to the byte accumulator (completing a byte at 8
bits) and the hold is reset; when the two bits are equal, nothing is
emitted, the byte accumulator, its bit count and the pool are unchanged, and
the hold is reset. -/
theorem claim_C1 (s : EntropySource) (b : Nat) :
    (s.bit_cnt = 0 →
      vnBitStep s b = { s with last_bit := b, bit_cnt := s.bit_cnt + 1 }) ∧
    (s.bit_cnt ≠ 0 → s.last_bit ≠ b →
      (vnBitStep s b).bit_cnt = 0 ∧
      (s.currentBitPtr + 1 ≠ 8 →
        (vnBitStep s b).currentByte = ((s.currentByte <<< 1) ||| s.last_bit) % 256 ∧
        (vnBitStep s b).currentBitPtr = s.currentBitPtr + 1 ∧
        (vnBitStep s b).pool = s.pool ∧
        (vnBitStep s b).size = s.size) ∧
      (s.currentBitPtr + 1 = 8 →
        (vnBitStep s b).currentBitPtr = 0 ∧
        (vnBitStep s b).currentByte = 0 ∧
        (vnBitStep s b).pool s.writePtr = ((s.currentByte <<< 1) ||| s.last_bit) % 256 ∧
        (vnBitStep s b).writePtr = (s.writePtr + 1) % USTD_ENTROPY_POOL_SIZE)) ∧
    (s.bit_cnt ≠ 0 → s.last_bit = b → vnBitStep s b = { s with bit_cnt := 0 }) := by
  refine ⟨fun h0 => ?_, fun h0 hne => ?_, fun h0 heq => ?_⟩
  · simp [vnBitStep, h0]
  · refine ⟨?_, fun hp => ?_, fun hp => ?_⟩
    · simp [vnBitStep, h0, hne]
    · simp [vnBitStep, h0, hne, hp]
    · simp [vnBitStep, h0, hne, hp, pushByte, Function.update_same]
  · simp [vnBitStep, h0, heq]

/-- Witness for C1 at concrete extractor states: a fresh state holds the
first bit; a state holding bit 1 fed the differing bit 0 appends the held
bit and resets the hold; fed the equal bit 1 it only resets the hold. -/
theorem claim_C1_w :
    vnBitStep initEntropySource 1 =
      { initEntropySource with last_bit := 1, bit_cnt := initEntropySource.bit_cnt + 1 } ∧
    (vnBitStep vnHeld 0).bit_cnt = 0 ∧
    (vnBitStep vnHeld 0).currentByte = ((vnHeld.currentByte <<< 1) ||| vnHeld.last_bit) % 256 ∧
    vnBitStep vnHeld 1 = { vnHeld with bit_cnt := 0 } :=
  ⟨(claim_C1 initEntropySource 1).1 rfl,
   ((claim_C1 vnHeld 0).2.1 (by decide) (by decide)).1,
   (((claim_C1 vnHeld 0).2.1 (by decide) (by decide)).2.1 (by decide)).1,
   (claim_C1 vnHeld 1).2.2 (by decide) rfl⟩

/-- Counterexample to C3: the code's tolerance band is the truncated float
band, not [expected/fudge, expected*fudge] taken literally.  Upper bound,
integer reading: a complete 25728-sample batch (expected = 25728/256 = 100,
expected*fudge = 200) with one bin at 201 — above expected*fudge — still
evaluates OK, because the code's max is 25728/128 = 201.  Lower bound,
exact reading: a complete 25727-sample batch with one bin at 50 — strictly
below expected/fudge = 25727/512 = 50.24…, witnessed by 50 * 512 < 25727 —
still evaluates OK, because the code's truncated min is 50.  Both sample
sizes are below 2 ^ 24, where the float modelling is exact. -/
theorem claim_C3_cex :
    evalRngSelfTest rngUpHist 25728 = true ∧
    (25728 / 256) * 2 < rngUpHist 0 ∧
    (List.range 256).foldl (fun a i => a + rngUpHist i) 0 = 25728 ∧
    evalRngSelfTest rngLowHist 25727 = true ∧
    rngLowHist 0 * 512 < 25727 ∧
    (List.range 256).foldl (fun a i => a + rngLowHist i) 0 = 25727 :=
  ⟨by decide, by decide, by decide, by decide, by decide, by decide⟩

/-- Claim C3 as amended: the self-test histogram evaluation yields OK if
and only if every one of the 256 bin counts lies within the band the code
computes, min = fl32 targetSampleCount / 512 and
max = fl32 targetSampleCount / 128 — the truncations of
(float)targetSampleCount/256.0/2.0 and (float)targetSampleCount/256.0*2.0
with fudge factor 2.0.  For every targetSampleCount below 2 ^ 24 (the
float-exact range, containing the default 25600) the band is exactly
[targetSampleCount / 512, targetSampleCount / 128] in integer division,
whose lower end always agrees with (targetSampleCount / 256) / 2; a
perfectly uniform 25600-sample stream yields OK and a stream whose byte
value 0 occurs at 10 times the expected frequency (the rest proportionally
less) yields FAILED. -/
theorem claim_C3_amended (hist : Nat → Nat) (N : Nat) :
    (evalRngSelfTest hist N = true ↔
      ∀ i, i < 256 → fl32 N / 512 ≤ hist i ∧ hist i ≤ fl32 N / 128) ∧
    (N < 16777216 → fl32 N = N) ∧
    N / 256 / 2 = N / 512 ∧
    evalRngSelfTest rngUniformHist 25600 = true ∧
    evalRngSelfTest rngSkewHist 25600 = false := by
  refine ⟨?_, fun h => ?_, ?_, by decide, by decide⟩
  · unfold evalRngSelfTest
    rw [eval_foldl_iff]
    simp [List.mem_range]
  · unfold fl32
    rw [if_pos h]
  · rw [Nat.div_div_eq_div_mul]

/-- Witness for C3's amended claim: the default sample size 25600 is in the
float-exact range, and by the equivalence the uniform histogram's bin 0
lies inside the code's band. -/
theorem claim_C3_amended_w :
    fl32 25600 = 25600 ∧
    (fl32 25600 / 512 ≤ rngUniformHist 0 ∧ rngUniformHist 0 ≤ fl32 25600 / 128) :=
  ⟨(claim_C3_amended rngUniformHist 25600).2.1 (by decide),
   (claim_C3_amended rngUniformHist 25600).1.mp
     (claim_C3_amended rngUniformHist 25600).2.2.2.1 0 (by decide)⟩

/-- Counterexample to C4: the handler does not derive its candidate bits
from the inter-arrival delta.  Feeding the code and the spec's
delta-then-CRC model the same interrupt times [50, 150] from the same fresh
CRC state (and last-event time 0), the very first candidate byte agrees (the
first absolute time equals the first delta) yet the second candidate byte
and the candidate bit streams disagree: the code mixes the absolute micros()
value 150 where the spec's contract mixes the inter-arrival delta 100. -/
theorem claim_C4_cex :
    codeDeltaBytes 0xffff [50] = specDeltaModel 0xffff 0 [50] ∧
    codeDeltaBytes 0xffff [50, 150] ≠ specDeltaModel 0xffff 0 [50, 150] ∧
    codeCandidateBits 0xffff [50, 150] ≠ specCandidateBits 0xffff 0 [50, 150] := by
  refine ⟨by decide, by decide, by decide⟩

/-- Claim C4 as amended: on every invocation the handler increments the
global interrupt counter and, when the pool is below capacity, derives the
candidate bits by mixing the low 16 bits of the absolute current micros()
value through the per-source CRC16 state and feeding the low bits of the
post-processed CRC to the von Neumann extractor; it computes no
inter-arrival delta and stores no last-event timestamp — its result depends
on the current time only through the time's low 16 bits. -/
theorem claim_C4_amended (g : RngGlobal) (irqno t c : Nat) :
    ustd_rng_pirq_master g irqno t = ustd_rng_pirq_master g irqno (t % 65536) ∧
    irqMix c t = irqMix c (t % 65536) ∧
    (irqMix c t).2 = (irqMix c t).1 &&& 0xff ∧
    ((g.src irqno).size < USTD_ENTROPY_POOL_SIZE →
      (ustd_rng_pirq_master g irqno t).src irqno =
        (bitsOfDelta (irqMix (g.src irqno).crc t).2).foldl vnBitStep
          { g.src irqno with crc := (irqMix (g.src irqno).crc t).1 }) ∧
    (ustd_rng_pirq_master g irqno t).irq_count_total = g.irq_count_total + 1 := by
  have hm : ∀ c0, irqMix c0 t = irqMix c0 (t % 65536) := by
    intro c0
    unfold irqMix
    rw [show t % 65536 % 65536 = t % 65536 from by omega]
  refine ⟨?_, hm c, rfl, fun hsz => ?_, ?_⟩
  · unfold ustd_rng_pirq_master
    simp only [hm]
  · simp only [ustd_rng_pirq_master, hsz, if_true]
    exact Function.update_same _ _ _
  · unfold ustd_rng_pirq_master
    by_cases hsz : (g.src irqno).size < USTD_ENTROPY_POOL_SIZE <;> simp [hsz]

/-- Witness for C4's amended claim: at the initial global state and the
concrete time 70000 the handler behaves as the CRC-of-low-16-bits pipeline
and agrees with its own run at 70000 % 65536. -/
theorem claim_C4_amended_w :
    (ustd_rng_pirq_master initRngGlobal 0 70000).src 0 =
      (bitsOfDelta (irqMix (initRngGlobal.src 0).crc 70000).2).foldl vnBitStep
        { initRngGlobal.src 0 with crc := (irqMix (initRngGlobal.src 0).crc 70000).1 } ∧
    ustd_rng_pirq_master initRngGlobal 0 70000 =
      ustd_rng_pirq_master initRngGlobal 0 (70000 % 65536) :=
  ⟨(claim_C4_amended initRngGlobal 0 70000 0).2.2.2.1 (by decide),
   (claim_C4_amended initRngGlobal 0 70000 0).1⟩

/-- Claim C9: the rng/data publish is capped at publishMax = 128 bytes
(256 hex characters), but the hex-encode loop of publish_rng_data is NOT
within bounds for every fill level in [0, 128]: the output buffer buf is
declared with bufCapacity = publishMax + 1 = 129 characters (valid indices
0..128), while encoding a full 128-byte publish buffer writes to index 256;
every fill level above 64 writes past the end of buf.  At fill levels up to
64 all writes are in bounds. -/
theorem claim_C9_overflow :
    bufCapacity = 129 ∧
    ((publish_rng_data_writes publishMax (fun _ => 0)).map Prod.fst).contains 256 = true ∧
    ¬(256 < bufCapacity) ∧
    (((publish_rng_data_writes 65 (fun _ => 0)).map Prod.fst).contains 130 = true) ∧
    (((publish_rng_data_writes 64 (fun _ => 0)).map Prod.fst).all
      (fun ix => decide (ix < bufCapacity))) = true := by
  refine ⟨rfl, by decide, by decide, by decide, by decide⟩

/-- Claim C7: while the generator state is FAILED, a tick re-enters
SELF_TEST with self-test step INIT exactly when the unsigned-long interrupt
count has grown by more than 4 since the previous tick (d new interrupts
observed); with at most 4 new interrupts — in particular zero — the state
stays FAILED, the self-test step is untouched and no other work (no drain,
no publish, no global change) happens. -/
theorem claim_C7 (g : RngGlobal) (r : RngInst) (nowSec nowMs d : Nat)
    (hmode : r.rngSampleMode = RSM_FAILED)
    (hlast : r.lastIrqCount < ULONG_MOD)
    (hd : getTotalIrqCount g = (r.lastIrqCount + d) % ULONG_MOD)
    (hdw : d < ULONG_MOD) :
    (((loop g r nowSec nowMs).2.rngSampleMode = RSM_SELF_TEST ∧
      (loop g r nowSec nowMs).2.rngSelfTestState = RST_INIT) ↔ 4 < d) ∧
    (d ≤ 4 →
      (loop g r nowSec nowMs).2.rngSampleMode = RSM_FAILED ∧
      (loop g r nowSec nowMs).2.rngSelfTestState = r.rngSelfTestState ∧
      (loop g r nowSec nowMs).2.publishBuf = r.publishBuf) ∧
    (loop g r nowSec nowMs).1 = g := by
  have hw : (getTotalIrqCount g + ULONG_MOD - r.lastIrqCount) % ULONG_MOD = d := by
    rw [hd]
    unfold ULONG_MOD at *
    omega
  by_cases h4 : 4 < d
  · simp [loop, hmode, hw, h4, startSelfTest]
  · simp [loop, hmode, hw, h4]

/-- Witness for C7: from a FAILED instance with a last observed count of 0
and a global counter reading 7 (7 > 4 new interrupts), one tick re-enters
SELF_TEST at step INIT. -/
theorem claim_C7_w :
    (loop gIrq7 rFailed1 0 0).2.rngSampleMode = RSM_SELF_TEST ∧
    (loop gIrq7 rFailed1 0 0).2.rngSelfTestState = RST_INIT :=
  (claim_C7 gIrq7 rFailed1 0 0 7 rfl (by decide) (by decide) (by decide)).1.mpr (by decide)

/-- Counterexample to C8: a self-test restart does NOT reset the
EntropySource ring buffer.  From a global state whose source 0 reports 3
buffered bytes, calling startSelfTest and running the INIT tick leaves the
buffered-byte count at 3, not 0 as the claim requires. -/
theorem claim_C8_cex :
    ((loop gPool3 (startSelfTest rRunning) 5 5).1.src 0).size = 3 ∧
    ((loop gPool3 (startSelfTest rRunning) 5 5).2.rngSelfTestState = RST_RUNNING) ∧
    (3 : Nat) ≠ 0 := by
  refine ⟨rfl, rfl, by decide⟩

/-- Claim C8 as amended: every restart of the self-test (a repeated start
call or the automatic retry), once the INIT step has run, resets the 256-bin
histogram and the sample counter to zero and restarts the stall timer, and
no histogram or counter state from a prior run leaks into the new self-test;
the EntropySource ring buffer, however, is NOT reset — the global state
(pool contents, cursors, buffered-byte count) is unchanged by the restart. -/
theorem claim_C8_amended (g : RngGlobal) (r : RngInst) (nowSec nowMs : Nat) :
    (loop g (startSelfTest r) nowSec nowMs).2.rngSelfTestState = RST_RUNNING ∧
    (loop g (startSelfTest r) nowSec nowMs).2.rngSampleMode = RSM_SELF_TEST ∧
    (loop g (startSelfTest r) nowSec nowMs).2.rngHistogram = (fun _ => 0) ∧
    (loop g (startSelfTest r) nowSec nowMs).2.samples = 0 ∧
    (loop g (startSelfTest r) nowSec nowMs).2.testTimer = nowSec ∧
    (loop g (startSelfTest r) nowSec nowMs).1 = g := by
  simp [loop, startSelfTest, rngSelfTest]

/-- Counterexample to C10: the entropy sources are not fully independent.
Two runs that differ only in five interrupts delivered to source 0 leave
source 1's slice identical, yet the instance watching source 1, sitting in
FAILED with a recorded count of 0, stays FAILED in the quiet run and
transitions to SELF_TEST(INIT) in the burst run: its retry logic reads the
shared irq_count_total, which source 0's interrupts incremented. -/
theorem claim_C10_cex :
    gBurst.src 1 = initRngGlobal.src 1 ∧
    (loop initRngGlobal rFailed1 0 0).2.rngSampleMode = RSM_FAILED ∧
    (loop gBurst rFailed1 0 0).2.rngSampleMode = RSM_SELF_TEST ∧
    (loop gBurst rFailed1 0 0).2.rngSelfTestState = RST_INIT := by
  refine ⟨rfl, by decide, by decide, by decide⟩

/-- Claim C10 as amended: the per-source slices are independent — the
interrupt handler for source i never touches the slice of a different
source j, and a tick of an instance watching a source other than j never
touches slice j — but the interrupt counter irq_count_total is shared
across all sources: every handler invocation increments it regardless of
source, and the FAILED-retry logic of every instance reads it, so
interrupts on one source are observable to every other instance's state
machine. -/
theorem claim_C10_amended (g : RngGlobal) (r : RngInst) (i j t nowSec nowMs : Nat)
    (hi : i < 10) (hj : j < 10) (hij : i ≠ j) (hjr : j ≠ r.interruptIndex_input) :
    (ustd_rng_pirq_master g i t).src j = g.src j ∧
    (loop g r nowSec nowMs).1.src j = g.src j ∧
    (ustd_rng_pirq_master g i t).irq_count_total = g.irq_count_total + 1 := by
  refine ⟨?_, loop_src_other g r nowSec nowMs j hjr, ?_⟩
  · unfold ustd_rng_pirq_master
    by_cases hsz : (g.src i).size < USTD_ENTROPY_POOL_SIZE <;>
      simp [hsz, Function.update_noteq (Ne.symm hij)]
  · unfold ustd_rng_pirq_master
    by_cases hsz : (g.src i).size < USTD_ENTROPY_POOL_SIZE <;> simp [hsz]

/-- Claim C2: for every sequence of interleaved pushes (the handler's byte
append) and drains (getRandomData) on one source's pool from the initial
state, the buffered count stays in [0, 512] (it is a Nat, so nonnegative by
type), the cursors stay below 512 (they advance modulo 512), and the
concatenation of all drained bytes followed by the bytes still buffered
equals the accepted pushed bytes in order — FIFO, no reordering, no
duplication; moreover each single drain on any well-formed source copies at
most the requested number of bytes, returns exactly the number copied, takes
them from the front of the FIFO queue, and decrements the count by exactly
that number. -/
theorem claim_C2 (ops : List PoolOp) (s : EntropySource) (k : Nat) (hInv : Inv s) :
    (Inv (runOps initEntropySource ops).1 ∧
     (runOps initEntropySource ops).1.size ≤ USTD_ENTROPY_POOL_SIZE ∧
     (runOps initEntropySource ops).1.readPtr < USTD_ENTROPY_POOL_SIZE ∧
     (runOps initEntropySource ops).1.writePtr < USTD_ENTROPY_POOL_SIZE ∧
     (runOps initEntropySource ops).2.2 ++ queueOf (runOps initEntropySource ops).1 =
       (runOps initEntropySource ops).2.1) ∧
    ((getRandomData s k).1.length = (getRandomData s k).2.1 ∧
     (getRandomData s k).2.1 ≤ k ∧
     (getRandomData s k).1 = (queueOf s).take ((getRandomData s k).2.1) ∧
     (getRandomData s k).2.2.size = s.size - (getRandomData s k).2.1) := by
  have hinit : Inv initEntropySource := ⟨by decide, by decide, by decide, by decide⟩
  have hrun := runOps_spec ops initEntropySource hinit
  have hq : queueOf initEntropySource = [] := rfl
  refine ⟨⟨hrun.1, hrun.1.2.2.1, hrun.1.1, hrun.1.2.1, ?_⟩, ?_⟩
  · have h2 := hrun.2
    rw [hq] at h2
    simpa using h2
  · have hd := getRandomData_spec s k hInv
    refine ⟨drainLoop_length _ s, ?_, hd.1, hd.2.2.2.1⟩
    rw [getRandomData_len_eq]
    omega

/-- Witness for C2 at a concrete interleaving (push 7, push 9, drain 1,
push 3, drain 5) and a concrete single drain request of 3 bytes from the
initial source state. -/
theorem claim_C2_w :
    Inv (runOps initEntropySource opsScenario).1 ∧
    (getRandomData initEntropySource 3).2.1 ≤ 3 :=
  ⟨(claim_C2 opsScenario initEntropySource 3
      ⟨by decide, by decide, by decide, by decide⟩).1.1,
   (claim_C2 opsScenario initEntropySource 3
      ⟨by decide, by decide, by decide, by decide⟩).2.2.1⟩

/-- Counterexample to C5: the OK state is left automatically.  With a
self-test target of 0 samples (a constructor parameter), the machine walks
INIT, RUNNING, SAMPLE_DONE to OK in three ticks from the start state with
all pools empty; the very next tick drains zero bytes and the code moves
OK to FAILED with no external reset involved. -/
theorem claim_C5_cex :
    trace3.2.rngSampleMode = RSM_OK ∧ trace4.2.rngSampleMode = RSM_FAILED :=
  ⟨by decide, by decide⟩

/-- Claim C5 as amended: once the generator state is OK, every tick records
the time, fully drains the pool (up to the 512-byte request, hence the whole
pool) and stages the drained bytes into the publish buffer up to its cap;
the post-state is OK exactly when at least one byte was drained, and a tick
that drains zero bytes automatically moves the state to FAILED. -/
theorem claim_C5_amended (g : RngGlobal) (r : RngInst) (nowSec nowMs : Nat)
    (hmode : r.rngSampleMode = RSM_OK) (hInv : Inv (g.src r.interruptIndex_input)) :
    ((loop g r nowSec nowMs).2.rngSampleMode = RSM_OK ↔
      0 < (g.src r.interruptIndex_input).size) ∧
    ((g.src r.interruptIndex_input).size = 0 →
      (loop g r nowSec nowMs).2.rngSampleMode = RSM_FAILED) ∧
    ((loop g r nowSec nowMs).1.src r.interruptIndex_input).size = 0 ∧
    (0 < (g.src r.interruptIndex_input).size → r.publishBuf.length < publishMax →
      (loop g r nowSec nowMs).2.publishBuf =
        r.publishBuf ++ (queueOf (g.src r.interruptIndex_input)).take
          (publishMax - r.publishBuf.length)) ∧
    (loop g r nowSec nowMs).2.lastOkMillis = nowMs := by
  obtain ⟨mode, stst, hist, smp, tt, N, idx, lic, lom, pb, ff⟩ := r
  have hm : mode = RSM_OK := hmode
  subst hm
  have hInv2 : Inv (g.src idx) := hInv
  have hd := getRandomData_spec (g.src idx) rngBufSize hInv2
  have hn : (getRandomData (g.src idx) rngBufSize).2.1 = (g.src idx).size := by
    rw [getRandomData_len_eq]
    obtain ⟨-, -, h3, -⟩ := hInv2
    simp only [rngBufSize, USTD_ENTROPY_POOL_SIZE] at *
    omega
  have hql : (queueOf (g.src idx)).length = (g.src idx).size := by
    unfold queueOf
    simp
  have hfull : (getRandomData (g.src idx) rngBufSize).1 = queueOf (g.src idx) := by
    rw [hd.1, hn, ← hql, List.take_length]
  simp only [loop, sampleRandomAndDistribute]
  by_cases hz : (getRandomData (g.src idx) rngBufSize).2.1 = 0
  · have hsz0 : (g.src idx).size = 0 := by omega
    refine ⟨?_, ?_, ?_, ?_, ?_⟩
    · simp only [hz, if_true, Bool.false_eq_true, if_false]
      exact ⟨fun h => absurd h (by decide), fun h => absurd h (by omega)⟩
    · intro h
      simp only [hz, if_true, Bool.false_eq_true, if_false]
    · simp only [hz, if_true, Bool.false_eq_true, if_false]
      rw [Function.update_same, hd.2.2.2.1]
      omega
    · intro hpos
      exact absurd hpos (by omega)
    · simp only [hz, if_true, Bool.false_eq_true, if_false]
  · have hszpos : 0 < (g.src idx).size := by omega
    refine ⟨?_, ?_, ?_, ?_, ?_⟩
    · simp only [hz, if_false, if_true]
      by_cases hlen : pb.length < publishMax <;> simp only [hlen, if_true, if_false] <;>
        exact ⟨fun _ => hszpos, fun _ => trivial⟩
    · intro h
      exact absurd h (by omega)
    · simp only [hz, if_false, if_true]
      rw [Function.update_same, hd.2.2.2.1]
      omega
    · intro hpos hlen
      simp only [hz, if_false, if_true, hlen]
      rw [hfull]
    · simp only [hz, if_false, if_true]
      by_cases hlen : pb.length < publishMax <;> simp only [hlen, if_true, if_false]

/-- Witness for C5's amended claim: from an OK instance on a source holding
one byte, the tick stays OK and records millis() = 6. -/
theorem claim_C5_amended_w :
    ((loop gOne rOk 5 6).2.rngSampleMode = RSM_OK ↔
      0 < (gOne.src rOk.interruptIndex_input).size) ∧
    (loop gOne rOk 5 6).2.lastOkMillis = 6 :=
  ⟨(claim_C5_amended gOne rOk 5 6 rfl ⟨by decide, by decide, by decide, by decide⟩).1,
   (claim_C5_amended gOne rOk 5 6 rfl
      ⟨by decide, by decide, by decide, by decide⟩).2.2.2.2⟩

/-- Claim C6: in SELF_TEST(RUNNING) below the sample target, a tick that
drains zero bytes for longer than the 10-second stall timeout moves the
self-test to FAILED (and the generator state to FAILED) instead of staying
in RUNNING; a zero-byte tick within the timeout stays in RUNNING with the
stall timer untouched; a tick that drains at least one byte stays in RUNNING
and restarts the stall timer to the current time; every drained byte bumps
its histogram bin and the sample counter; and once the counter has reached
the target, the next tick moves to SAMPLE_DONE. -/
theorem claim_C6 (g : RngGlobal) (r : RngInst) (nowSec nowMs : Nat)
    (hmode : r.rngSampleMode = RSM_SELF_TEST)
    (hst : r.rngSelfTestState = RST_RUNNING) :
    (r.samples < r.selfTestSampleSize → (g.src r.interruptIndex_input).size = 0 →
      10 < nowSec - r.testTimer →
      (loop g r nowSec nowMs).2.rngSelfTestState = RST_FAILED ∧
      (loop g r nowSec nowMs).2.rngSampleMode = RSM_FAILED) ∧
    (r.samples < r.selfTestSampleSize → (g.src r.interruptIndex_input).size = 0 →
      nowSec - r.testTimer ≤ 10 →
      (loop g r nowSec nowMs).2.rngSelfTestState = RST_RUNNING ∧
      (loop g r nowSec nowMs).2.testTimer = r.testTimer) ∧
    (r.samples < r.selfTestSampleSize → 0 < (g.src r.interruptIndex_input).size →
      (loop g r nowSec nowMs).2.rngSelfTestState = RST_RUNNING ∧
      (loop g r nowSec nowMs).2.testTimer = nowSec) ∧
    (r.samples < r.selfTestSampleSize →
      (loop g r nowSec nowMs).2.samples =
        r.samples + (getRandomData (g.src r.interruptIndex_input) rngBufSize).2.1 ∧
      (loop g r nowSec nowMs).2.rngHistogram = fun v =>
        r.rngHistogram v +
          ((getRandomData (g.src r.interruptIndex_input) rngBufSize).1.count v)) ∧
    (r.selfTestSampleSize ≤ r.samples →
      (loop g r nowSec nowMs).2.rngSelfTestState = RST_SAMPLE_DONE ∧
      (loop g r nowSec nowMs).2.rngSampleMode = RSM_SELF_TEST) := by
  obtain ⟨mode, stst, hist, smp, tt, N, idx, lic, lom, pb, ff⟩ := r
  have hm : mode = RSM_SELF_TEST := hmode
  have hs : stst = RST_RUNNING := hst
  subst hm
  subst hs
  have hlen1 : (getRandomData (g.src idx) rngBufSize).1.length =
      (getRandomData (g.src idx) rngBufSize).2.1 := drainLoop_length _ _
  refine ⟨?_, ?_, ?_, ?_, ?_⟩
  · intro hsam0 hsz0 htime0
    have hsam : smp < N := hsam0
    have hsz : (g.src idx).size = 0 := hsz0
    have htime : 10 < nowSec - tt := htime0
    have hz : (getRandomData (g.src idx) rngBufSize).2.1 = 0 := by
      rw [getRandomData_len_eq, hsz]
      simp
    simp [loop, rngSelfTest, updateHist_eq, hsam, hz, htime]
  · intro hsam0 hsz0 htime0
    have hsam : smp < N := hsam0
    have hsz : (g.src idx).size = 0 := hsz0
    have htime : nowSec - tt ≤ 10 := htime0
    have hz : (getRandomData (g.src idx) rngBufSize).2.1 = 0 := by
      rw [getRandomData_len_eq, hsz]
      simp
    have hnt : ¬(10 < nowSec - tt) := by omega
    simp [loop, rngSelfTest, updateHist_eq, hsam, hz, hnt]
  · intro hsam0 hpos0
    have hsam : smp < N := hsam0
    have hpos : 0 < (g.src idx).size := hpos0
    have hnz : ¬((getRandomData (g.src idx) rngBufSize).2.1 = 0) := by
      rw [getRandomData_len_eq]
      simp only [rngBufSize, USTD_ENTROPY_POOL_SIZE]
      omega
    simp [loop, rngSelfTest, updateHist_eq, hsam, hnz]
  · intro hsam0
    have hsam : smp < N := hsam0
    by_cases hz : (getRandomData (g.src idx) rngBufSize).2.1 = 0
    · by_cases ht : 10 < nowSec - tt
      · simp [loop, rngSelfTest, updateHist_eq, hsam, hz, ht, hlen1]
      · simp [loop, rngSelfTest, updateHist_eq, hsam, hz, ht, hlen1]
    · simp [loop, rngSelfTest, updateHist_eq, hsam, hz, hlen1]
  · intro h5
    have hns : ¬(smp < N) := not_lt.mpr h5
    simp [loop, rngSelfTest, hns]

/-- Witness for C6 at concrete states: a stalled tick (no pool bytes, 11
seconds past the stall timer start) fails the self-test, and a tick on a
source holding one byte restarts the stall timer. -/
theorem claim_C6_w :
    ((loop initRngGlobal rRunning 11 0).2.rngSelfTestState = RST_FAILED ∧
     (loop initRngGlobal rRunning 11 0).2.rngSampleMode = RSM_FAILED) ∧
    (loop gOne rRunning 3 0).2.testTimer = 3 :=
  ⟨(claim_C6 initRngGlobal rRunning 11 0 rfl rfl).1 (by decide) (by decide) (by decide),
   ((claim_C6 gOne rRunning 3 0 rfl rfl).2.2.1 (by decide) (by decide)).2⟩

/-- Witness for C10's amended claim at sources 0 and 2 with an instance
watching source 1. -/
theorem claim_C10_amended_w :
    (ustd_rng_pirq_master initRngGlobal 0 5).src 2 = initRngGlobal.src 2 ∧
    (loop initRngGlobal rFailed1 0 0).1.src 2 = initRngGlobal.src 2 :=
  ⟨(claim_C10_amended initRngGlobal rFailed1 0 2 5 0 0 (by decide) (by decide) (by decide)
      (by decide)).1,
   (claim_C10_amended initRngGlobal rFailed1 0 2 5 0 0 (by decide) (by decide) (by decide)
      (by decide)).2.1⟩

end MupRng
